import Mathlib

/-!
Verification of the CST-to-AST reduction engine of the dbml-orm repository
(`src/parser/mod.rs`). The grammar engine (pest) is external: it hands the
reducer a tree of tagged nodes, each carrying a rule tag, its exact matched
source text, and its ordered children. We embed that tree shape as `Node`
and translate every reduction function of `src/parser/mod.rs` one-to-one.

Rust `Result` becomes `Except`; process aborts (`unwrap()` on a failed
parse, `unreachable!`) are modelled by the dedicated error constructor
`ParsingError.abort`, kept distinct from the typed reduction errors
(`rules`, `msg`) so that "typed error" and "process abort" can be told
apart in theorems.
-/

namespace DbmlOrm

/-- Rule tags of the pest grammar, as referenced by `src/parser/mod.rs`. -/
inductive Rule where
  | schema | EOI
  | project_decl | project_block | project_stmt | project_key
  | table_decl | table_alias | table_block | table_col
  | col_type | col_type_single | col_type_array | col_type_arg
  | col_settings | col_attribute | col_default
  | enum_decl | enum_block | enum_value | enum_settings | enum_attribute
  | ref_decl | ref_block | ref_short | ref_stmt | ref_ident | ref_composition
  | ref_inline | relation | rel_settings | rel_attribute | rel_update | rel_delete
  | table_group_decl | table_group_block
  | indexes_decl | indexes_block | indexes_single | indexes_multi
  | indexes_ident | indexes_settings | indexes_attribute | indexes_type | indexes_name
  | note_decl | note_short | note_block | note_inline
  | value | string_value | number_value | boolean_value
  | decimal | integer
  | ident | decl_ident | var
  | double_quoted_string | double_quoted_value
  | single_quoted_string | single_quoted_value
  | triple_quoted_string | triple_quoted_value
  | backquoted_quoted_string | backquoted_quoted_value
deriving DecidableEq

/-- A parse-tree node: rule tag, exact matched source text, ordered children
(pest `Pair`). -/
inductive Node where
  | mk (rule : Rule) (text : String) (children : List Node)

def Node.as_rule : Node → Rule
  | .mk r _ _ => r

def Node.as_str : Node → String
  | .mk _ t _ => t

def Node.into_inner : Node → List Node
  | .mk _ _ cs => cs

@[simp] theorem Node.as_rule_mk (r : Rule) (t : String) (cs : List Node) :
    (Node.mk r t cs).as_rule = r := rfl

@[simp] theorem Node.as_str_mk (r : Rule) (t : String) (cs : List Node) :
    (Node.mk r t cs).as_str = t := rfl

@[simp] theorem Node.into_inner_mk (r : Rule) (t : String) (cs : List Node) :
    (Node.mk r t cs).into_inner = cs := rfl

/-- Modelled from the spec: the `err` module is not under `src/`; per §7 a
`ReductionError` is `UnexpectedRule { expected, found, span }` or
`InvalidAttribute { message, span }`. Spans are represented by the node's
matched text. The extra `abort` constructor models a process abort
(`unreachable!` / `unwrap` panic), which the spec distinguishes from a
typed error. -/
inductive ParsingError where
  | rules (expected : List Rule) (found : Rule) (text : String)
  | msg (m : String) (text : String)
  | abort (m : String)
deriving DecidableEq

abbrev ParsingResult (α : Type) := Except ParsingError α

@[simp] theorem ParsingResult.bind_ok {α β : Type} (a : α) (f : α → ParsingResult β) :
    (Except.ok a : ParsingResult α) >>= f = f a := rfl

@[simp] theorem ParsingResult.bind_error {α β : Type} (e : ParsingError)
    (f : α → ParsingResult β) :
    (Except.error e : ParsingResult α) >>= f = .error e := rfl

@[simp] theorem ParsingResult.pure_eq_ok {α : Type} (a : α) :
    (pure a : ParsingResult α) = .ok a := rfl

def throw_rules {α : Type} (expected : List Rule) (found : Node) : ParsingResult α :=
  .error (.rules expected found.as_rule found.as_str)

def throw_msg {α : Type} (m : String) (found : Node) : ParsingResult α :=
  .error (.msg m found.as_str)

/-! ## AST entities

The `crate::ast::*` modules are not under `src/`; the entities below are
modelled from the spec, §3 (names and defaults as used by the reducer). -/

/-- Modelled from the spec: a literal value — String, Integer (32-bit
signed), Decimal (32-bit float), Bool, or Null. The decimal payload is
represented by the exact rational the literal denotes (f32 rounding is
abstracted away). -/
inductive Value where
  | string (s : String)
  | integer (i : Int)
  | decimal (q : Rat)
  | bool (b : Bool)
  | null
deriving DecidableEq

/-- Modelled from the spec: the column type is an opaque raw string, with an
undefined default before reduction fills it in. -/
inductive ColumnType where
  | undefined
  | raw (s : String)
deriving DecidableEq

/-- Modelled from the spec: relationship kind; `Undef` before the relation
operator token has been resolved. -/
inductive Relation where
  | undefined
  | many2one
  | one2many
  | one2one
  | many2many
deriving DecidableEq

/-- Modelled from the spec: the relation operator token is resolved by
textual match (`>` many-to-one, `<` one-to-many, `-` one-to-one, `<>`
many-to-many); anything else stays undefined. -/
def Relation.match_type (s : String) : Relation :=
  if s = ">" then .many2one
  else if s = "<" then .one2many
  else if s = "-" then .one2one
  else if s = "<>" then .many2many
  else .undefined

/-- Modelled from the spec: cascade action vocabulary for `on_update` /
`on_delete`. -/
inductive RelationAction where
  | undefined
  | no_action
  | cascade
  | restrict
  | set_null
  | set_default
deriving DecidableEq

/-- Modelled from the spec: textual match against the fixed action
vocabulary. -/
def RelationAction.match_type (s : String) : RelationAction :=
  if s = "no action" then .no_action
  else if s = "cascade" then .cascade
  else if s = "restrict" then .restrict
  else if s = "set null" then .set_null
  else if s = "set default" then .set_default
  else .undefined

structure RelationSettings where
  on_update : Option RelationAction := none
  on_delete : Option RelationAction := none
deriving DecidableEq

/-- Modelled from the spec: one side of a relationship — optional schema,
table name, ordered composition columns. -/
structure RefIdent where
  schema : Option String := none
  table : String := ""
  compositions : List String := []
deriving DecidableEq

/-- Modelled from the spec: a relationship — relation kind, optional
left-hand side, right-hand side, optional settings. -/
structure RefBlock where
  rel : Relation := .undefined
  lhs : Option RefIdent := none
  rhs : RefIdent := {}
  settings : Option RelationSettings := none
deriving DecidableEq

/-- Modelled from the spec: column attribute accumulator, all booleans
defaulting to false. -/
structure ColumnSettings where
  is_array : Bool := false
  is_unique : Bool := false
  is_pk : Bool := false
  is_nullable : Bool := false
  is_incremental : Bool := false
  -- the source names this field `default`, which Lean reserves
  default_value : Option Value := none
  note : Option String := none
  refs : List RefBlock := []
deriving DecidableEq

structure TableField where
  col_name : String := ""
  col_type : ColumnType := .undefined
  col_args : List Value := []
  col_settings : ColumnSettings := {}
deriving DecidableEq

structure TableIdent where
  name : String := ""
  schema : Option String := none
  -- the source names this field `alias`, which Lean reserves
  alias_name : Option String := none
deriving DecidableEq

/-- Modelled from the spec: one indexed entity — a plain identifier or a raw
backquoted expression. -/
inductive IndexesIdent where
  | string (s : String)
  | expr (s : String)
deriving DecidableEq

/-- Modelled from the spec: index type vocabulary. -/
inductive IndexesType where
  | undefined
  | btree
  | hash
deriving DecidableEq

/-- Modelled from the spec: textual match for the index type. -/
def IndexesType.match_type (s : String) : IndexesType :=
  if s = "btree" then .btree
  else if s = "hash" then .hash
  else .undefined

structure IndexesSettings where
  is_unique : Bool := false
  is_pk : Bool := false
  type : Option IndexesType := none
  name : Option String := none
  note : Option String := none
deriving DecidableEq

structure IndexesDef where
  idents : List IndexesIdent := []
  settings : Option IndexesSettings := none
deriving DecidableEq

structure IndexesBlock where
  defs : List IndexesDef := []
deriving DecidableEq

structure TableBlock where
  ident : TableIdent := {}
  fields : List TableField := []
  note : Option String := none
  indexes : Option IndexesBlock := none
deriving DecidableEq

structure EnumIdent where
  name : String := ""
  schema : Option String := none
deriving DecidableEq

structure EnumValue where
  value : String := ""
  note : Option String := none
deriving DecidableEq

structure EnumBlock where
  ident : EnumIdent := {}
  values : List EnumValue := []
deriving DecidableEq

structure TableGroupIdent where
  schema : Option String := none
  ident_alias : String := ""
deriving DecidableEq

structure TableGroupBlock where
  name : String := ""
  table_idents : List TableGroupIdent := []
deriving DecidableEq

structure ProjectBlock where
  name : String := ""
  database_type : String := ""
  note : Option String := none
deriving DecidableEq

structure SchemaBlock where
  project : Option ProjectBlock := none
  tables : List TableBlock := []
  enums : List EnumBlock := []
  refs : List RefBlock := []
  table_groups : List TableGroupBlock := []
deriving DecidableEq

/-! ## Numeric literal parsing

Embedding of Rust `str::parse::<i32>` and (restricted to the shapes the
grammar can produce) `str::parse::<f32>`, returning `none` exactly when the
Rust parse returns `Err` — which the source then `unwrap`s. -/

/-- Folds decimal digits into a number; `none` on any non-digit. An empty
list yields `some 0` (callers enforce non-emptiness). -/
def digitsToNat (cs : List Char) : Option Nat :=
  cs.foldl
    (fun acc c =>
      match acc with
      | none => none
      | some n => if c.isDigit then some (n * 10 + (c.toNat - 48)) else none)
    (some 0)

/-- Rust `str::parse::<i32>`: optional sign, one or more digits, value within
the 32-bit signed range; otherwise `Err` (here `none`). -/
def parseI32 (s : String) : Option Int :=
  let p : Int × List Char :=
    match s.data with
    | '+' :: r => (1, r)
    | '-' :: r => (-1, r)
    | r => (1, r)
  match p.2 with
  | [] => none
  | ds =>
    match digitsToNat ds with
    | none => none
    | some n =>
      let v : Int := p.1 * (n : Int)
      if -2147483648 ≤ v ∧ v ≤ 2147483647 then some v else none

/-- Rust `str::parse::<f32>` restricted to sign/digits/dot shapes (the only
shapes the grammar's `decimal` rule can produce); the resulting value is the
exact rational denoted, abstracting f32 rounding. Exponent, infinity and nan
forms are not representable in the grammar and are not modelled. -/
def parseF32 (s : String) : Option Rat :=
  let p : Int × List Char :=
    match s.data with
    | '+' :: r => (1, r)
    | '-' :: r => (-1, r)
    | r => (1, r)
  let ip := p.2.takeWhile (fun c => c ≠ '.')
  match p.2.dropWhile (fun c => c ≠ '.') with
  | '.' :: fp =>
    if ip.isEmpty ∧ fp.isEmpty then none
    else
      match digitsToNat ip, digitsToNat fp with
      | some a, some b =>
        some (mkRat (p.1 * ((a * 10 ^ fp.length + b : Nat) : Int)) (10 ^ fp.length))
      | _, _ => none
  | _ =>
    if ip.isEmpty then none
    else
      match digitsToNat ip with
      | some a => some (mkRat (p.1 * (a : Int)) 1)
      | none => none

/-! ## Reduction functions

One Lean definition per reduction function of `src/parser/mod.rs`, in
bottom-up order. Rust `try_fold` / `try_for_each` over children become
`List.foldlM` in the `Except` monad; `for` loops whose every arm exits are
list matches on the first child; `for` loops that can fall through to the
next child become explicit recursions returning `Option` (`none` = the
inner loop completed without returning). Rust `match` on `&str` becomes an
if-chain on string equality. -/

def parse_ident (pair : Node) : ParsingResult String :=
  match pair.into_inner with
  | [] => .error (.abort "something went wrong at ident!")
  | p1 :: _ =>
    match p1.as_rule with
    | .var => .ok p1.as_str
    | .double_quoted_string => .ok (p1.into_inner.foldl (fun _ p2 => p2.as_str) "")
    | _ => throw_rules [.var, .double_quoted_string] p1

def parse_string_value (pair : Node) : ParsingResult String :=
  pair.into_inner.foldlM
    (fun out p1 =>
      match p1.as_rule with
      | .triple_quoted_string =>
        p1.into_inner.foldlM
          (fun _ p2 =>
            match p2.as_rule with
            | .triple_quoted_value => .ok p2.as_str
            | _ => throw_rules [.triple_quoted_value] p2)
          out
      | .single_quoted_string =>
        p1.into_inner.foldlM
          (fun _ p2 =>
            match p2.as_rule with
            | .single_quoted_value => .ok p2.as_str
            | _ => throw_rules [.single_quoted_value] p2)
          out
      | _ => throw_rules [.triple_quoted_string, .single_quoted_string] p1)
    ""

/-- Inner loop over a `number_value` node's children; `none` means the loop
completed without returning (the node had no children). The `unwrap` calls
of the source on `str::parse` become aborts when the parse fails. -/
def parse_value_number : List Node → ParsingResult (Option Value)
  | [] => .ok none
  | p2 :: _ =>
    match p2.as_rule with
    | .decimal =>
      match parseF32 p2.as_str with
      | some q => .ok (some (.decimal q))
      | none => .error (.abort "called Result::unwrap on an Err value: ParseFloatError")
    | .integer =>
      match parseI32 p2.as_str with
      | some v => .ok (some (.integer v))
      | none => .error (.abort "called Result::unwrap on an Err value: ParseIntError")
    | _ => throw_rules [.decimal, .integer] p2

/-- Inner loop over a `boolean_value` node's children; `none` means the loop
completed without returning. -/
def parse_value_boolean : List Node → ParsingResult (Option Value)
  | [] => .ok none
  | p2 :: _ =>
    if p2.as_str = "true" then .ok (some (.bool true))
    else if p2.as_str = "false" then .ok (some (.bool false))
    else if p2.as_str = "null" then .ok (some .null)
    else throw_msg ("\x27" ++ p2.as_str ++ "\x27 is incompatible with boolean value") p2

def parse_value_go : List Node → ParsingResult Value
  | [] => .error (.abort "something went wrong at value!")
  | p1 :: rest =>
    match p1.as_rule with
    | .string_value =>
      match parse_string_value p1 with
      | .ok v => .ok (.string v)
      | .error e => .error e
    | .number_value =>
      match parse_value_number p1.into_inner with
      | .ok (some v) => .ok v
      | .ok none => parse_value_go rest
      | .error e => .error e
    | .boolean_value =>
      match parse_value_boolean p1.into_inner with
      | .ok (some v) => .ok v
      | .ok none => parse_value_go rest
      | .error e => .error e
    | _ => throw_rules [.string_value, .number_value, .boolean_value] p1

def parse_value (pair : Node) : ParsingResult Value :=
  parse_value_go pair.into_inner

def parse_note_inline (pair : Node) : ParsingResult String :=
  pair.into_inner.foldlM
    (fun _ p1 =>
      match p1.as_rule with
      | .string_value => parse_string_value p1
      | _ => throw_rules [.string_value] p1)
    ""

/-- Inner loop over a `note_short` / `note_block` node's children; `none`
means the loop completed without returning. -/
def parse_note_decl_inner : List Node → ParsingResult (Option String)
  | [] => .ok none
  | p2 :: _ =>
    match p2.as_rule with
    | .string_value =>
      match parse_string_value p2 with
      | .ok v => .ok (some v)
      | .error e => .error e
    | _ => throw_rules [.string_value] p2

def parse_note_decl_go : List Node → ParsingResult String
  | [] => .error (.abort "something went wrong parsing note_decl!")
  | p1 :: rest =>
    match p1.as_rule with
    | .note_short | .note_block =>
      match parse_note_decl_inner p1.into_inner with
      | .ok (some v) => .ok v
      | .ok none => parse_note_decl_go rest
      | .error e => .error e
    | _ => throw_rules [.note_short, .note_block] p1

def parse_note_decl (pair : Node) : ParsingResult String :=
  parse_note_decl_go pair.into_inner

def parse_decl_ident (pair : Node) : ParsingResult (Option String × String) := do
  let tmp_tokens ← pair.into_inner.foldlM
    (fun acc p1 =>
      match p1.as_rule with
      | .ident =>
        match parse_ident p1 with
        | .ok v => .ok (acc ++ [v])
        | .error e => .error e
      | _ => throw_rules [.ident] p1)
    ([] : List String)
  match tmp_tokens with
  | [s, n] => .ok (some s, n)
  | [n] => .ok (none, n)
  | _ => .error (.abort "unwell formatted decl_ident!")

def parse_ref_ident (pair : Node) : ParsingResult RefIdent := do
  let acc ← pair.into_inner.foldlM
    (fun (acc : List String × List String) p1 =>
      match p1.as_rule with
      | .ident =>
        match parse_ident p1 with
        | .ok v => .ok (acc.1 ++ [v], acc.2)
        | .error e => .error e
      | .ref_composition =>
        p1.into_inner.foldlM
          (fun (acc : List String × List String) p2 =>
            match p2.as_rule with
            | .ident =>
              match parse_ident p2 with
              | .ok v => .ok (acc.1, acc.2 ++ [v])
              | .error e => .error e
            | _ => throw_rules [.ident] p2)
          acc
      | _ => throw_rules [.ident, .ref_composition] p1)
    (([], []) : List String × List String)
  match acc.1 with
  | [s, t] => .ok { schema := some s, table := t, compositions := acc.2 }
  | [t] => .ok { schema := none, table := t, compositions := acc.2 }
  | _ => .error (.abort "unwell formatted ident!")

def parse_rel_settings (pair : Node) : ParsingResult RelationSettings :=
  pair.into_inner.foldlM
    (fun acc p1 =>
      match p1.as_rule with
      | .rel_attribute =>
        p1.into_inner.foldlM
          (fun (acc : RelationSettings) p2 =>
            match p2.as_rule with
            | .rel_update =>
              .ok (p2.into_inner.foldl
                (fun a p3 => { a with on_update := some (RelationAction.match_type p3.as_str) })
                acc)
            | .rel_delete =>
              .ok (p2.into_inner.foldl
                (fun a p3 => { a with on_delete := some (RelationAction.match_type p3.as_str) })
                acc)
            | _ => throw_rules [.rel_update, .rel_delete] p2)
          acc
      | _ => throw_rules [.rel_attribute] p1)
    {}

def parse_ref_stmt_inline (pair : Node) : ParsingResult RefBlock :=
  pair.into_inner.foldlM
    (fun acc p1 =>
      match p1.as_rule with
      | .relation => .ok { acc with rel := Relation.match_type p1.as_str }
      | .ref_ident =>
        match parse_ref_ident p1 with
        | .ok value =>
          if acc.rel = Relation.undefined then .ok { acc with lhs := some value }
          else .ok { acc with rhs := value }
        | .error e => .error e
      | .rel_settings =>
        match parse_rel_settings p1 with
        | .ok v => .ok { acc with settings := some v }
        | .error e => .error e
      | _ => throw_rules [.relation, .ref_ident, .rel_settings] p1)
    {}

/-- Inner loop over a `ref_block` / `ref_short` node's children; `none`
means the loop completed without returning. -/
def parse_ref_decl_inner : List Node → ParsingResult (Option RefBlock)
  | [] => .ok none
  | p2 :: _ =>
    match p2.as_rule with
    | .ref_stmt =>
      match parse_ref_stmt_inline p2 with
      | .ok v => .ok (some v)
      | .error e => .error e
    | _ => throw_rules [.ref_stmt] p2

def parse_ref_decl_go : List Node → ParsingResult RefBlock
  | [] => .error (.abort "something went wrong parsing ref_decl!")
  | p1 :: rest =>
    match p1.as_rule with
    | .ref_block | .ref_short =>
      match parse_ref_decl_inner p1.into_inner with
      | .ok (some v) => .ok v
      | .ok none => parse_ref_decl_go rest
      | .error e => .error e
    | _ => throw_rules [.ref_block, .ref_short] p1

def parse_ref_decl (pair : Node) : ParsingResult RefBlock :=
  parse_ref_decl_go pair.into_inner

def parse_col_type_arg (pair : Node) : ParsingResult (List Value) :=
  pair.into_inner.foldlM
    (fun acc p1 =>
      match p1.as_rule with
      | .value =>
        match parse_value p1 with
        | .ok v => .ok (acc ++ [v])
        | .error e => .error e
      | _ => throw_rules [.value] p1)
    []

def parse_col_type (pair : Node) : ParsingResult (ColumnType × List Value × Bool) :=
  pair.into_inner.foldlM
    (fun (acc : ColumnType × List Value × Bool) p1 =>
      match p1.as_rule with
      | .col_type_single | .col_type_array =>
        p1.into_inner.foldlM
          (fun (acc : ColumnType × List Value × Bool) p2 =>
            match p2.as_rule with
            | .var => .ok (ColumnType.raw p2.as_str, acc.2.1, acc.2.2)
            | .col_type_arg =>
              match parse_col_type_arg p2 with
              | .ok args => .ok (acc.1, args, acc.2.2)
              | .error e => .error e
            | _ => throw_rules [.var, .col_type_arg] p2)
          (acc.1, acc.2.1, p1.as_rule = Rule.col_type_array)
      | _ => throw_rules [.col_type_single] p1)
    (ColumnType.undefined, [], false)

/-- The structured sub-form tier of a `col_attribute` child: inline default
value, inline note, or inline relationship. -/
def col_attribute_subform_step (acc : ColumnSettings) (p2 : Node) : ParsingResult ColumnSettings :=
  match p2.as_rule with
  | .col_default =>
    match parse_value p2 with
    | .ok v => .ok { acc with default_value := some v }
    | .error e => .error e
  | .note_inline =>
    match parse_note_inline p2 with
    | .ok v => .ok { acc with note := some v }
    | .error e => .error e
  | .ref_inline =>
    match parse_ref_stmt_inline p2 with
    | .ok v => .ok { acc with refs := acc.refs ++ [v] }
    | .error e => .error e
  | _ =>
    throw_msg ("\x27" ++ p2.as_str ++ "\x27 is not the valid attribute for col_attribute") p2

/-- One step of the `parse_col_settings` fold: the two-tier dispatch on a
`col_attribute` child — fixed keyword text first, structured sub-rules
second. -/
def col_settings_step (acc : ColumnSettings) (p1 : Node) : ParsingResult ColumnSettings :=
  match p1.as_rule with
  | .col_attribute =>
    if p1.as_str = "unique" then .ok { acc with is_unique := true }
    else if p1.as_str = "primary key" ∨ p1.as_str = "pk" then .ok { acc with is_pk := true }
    else if p1.as_str = "null" then .ok { acc with is_nullable := true }
    else if p1.as_str = "not null" then .ok acc
    else if p1.as_str = "increment" then .ok { acc with is_incremental := true }
    else p1.into_inner.foldlM col_attribute_subform_step acc
  | _ => throw_rules [.col_attribute] p1

def parse_col_settings (pair : Node) : ParsingResult ColumnSettings :=
  pair.into_inner.foldlM col_settings_step {}

def parse_table_col (pair : Node) : ParsingResult TableField :=
  pair.into_inner.foldlM
    (fun acc p1 =>
      match p1.as_rule with
      | .ident =>
        match parse_ident p1 with
        | .ok v => .ok { acc with col_name := v }
        | .error e => .error e
      | .col_type =>
        match parse_col_type p1 with
        | .ok v =>
          .ok { acc with
            col_settings := { acc.col_settings with is_array := v.2.2 },
            col_args := v.2.1,
            col_type := v.1 }
        | .error e => .error e
      | .col_settings =>
        match parse_col_settings p1 with
        | .ok v => .ok { acc with col_settings := v }
        | .error e => .error e
      | _ => throw_rules [.ident, .col_type, .col_settings] p1)
    {}

def parse_indexes_ident_inner : List Node → ParsingResult (Option IndexesIdent)
  | [] => .ok none
  | p2 :: _ =>
    match p2.as_rule with
    | .backquoted_quoted_value => .ok (some (.expr p2.as_str))
    | _ => throw_rules [.backquoted_quoted_value] p2

def parse_indexes_ident_go : List Node → ParsingResult IndexesIdent
  | [] => .error (.abort "something went wrong at indexes_ident")
  | p1 :: rest =>
    match p1.as_rule with
    | .ident =>
      match parse_ident p1 with
      | .ok v => .ok (.string v)
      | .error e => .error e
    | .backquoted_quoted_string =>
      match parse_indexes_ident_inner p1.into_inner with
      | .ok (some v) => .ok v
      | .ok none => parse_indexes_ident_go rest
      | .error e => .error e
    | _ => throw_rules [.ident, .backquoted_quoted_string] p1

def parse_indexes_ident (pair : Node) : ParsingResult IndexesIdent :=
  parse_indexes_ident_go pair.into_inner

def parse_indexes_settings (pair : Node) : ParsingResult IndexesSettings :=
  pair.into_inner.foldlM
    (fun acc p1 =>
      match p1.as_rule with
      | .indexes_attribute =>
        p1.into_inner.foldlM
          (fun (acc : IndexesSettings) p2 =>
            if p2.as_str = "unique" then .ok { acc with is_unique := true }
            else if p2.as_str = "pk" then .ok { acc with is_pk := true }
            else
              match p2.as_rule with
              | .indexes_type =>
                .ok { acc with
                  type := p2.into_inner.foldl
                    (fun _ p3 => some (IndexesType.match_type p3.as_str)) none }
              | .indexes_name =>
                p2.into_inner.foldlM
                  (fun (acc : IndexesSettings) p3 =>
                    match parse_string_value p3 with
                    | .ok v => .ok { acc with name := some v }
                    | .error e => .error e)
                  acc
              | .note_inline =>
                match parse_note_inline p2 with
                | .ok v => .ok { acc with note := some v }
                | .error e => .error e
              | _ =>
                throw_msg ("\x27" ++ p2.as_str ++ "\x27 key is invalid inside indexes_attribute") p2)
          acc
      | _ => throw_rules [.indexes_attribute] p1)
    {}

def parse_indexes_single_multi (pair : Node) : ParsingResult IndexesDef :=
  pair.into_inner.foldlM
    (fun acc p1 =>
      match p1.as_rule with
      | .indexes_ident =>
        match parse_indexes_ident p1 with
        | .ok v => .ok { acc with idents := acc.idents ++ [v] }
        | .error e => .error e
      | .indexes_settings =>
        match parse_indexes_settings p1 with
        | .ok v => .ok { acc with settings := some v }
        | .error e => .error e
      | _ => throw_rules [.indexes_ident, .indexes_settings] p1)
    {}

def parse_indexes_block (pair : Node) : ParsingResult IndexesBlock :=
  pair.into_inner.foldlM
    (fun acc p1 =>
      match p1.as_rule with
      | .indexes_single | .indexes_multi =>
        match parse_indexes_single_multi p1 with
        | .ok v => .ok { acc with defs := acc.defs ++ [v] }
        | .error e => .error e
      | _ => throw_rules [.indexes_single, .indexes_multi] p1)
    {}

def parse_indexes_decl_go : List Node → ParsingResult IndexesBlock
  | [] => .error (.abort "something went wrong parsing indexes_decl!")
  | p1 :: _ =>
    match p1.as_rule with
    | .indexes_block => parse_indexes_block p1
    | _ => throw_rules [.indexes_block] p1

def parse_indexes_decl (pair : Node) : ParsingResult IndexesBlock :=
  parse_indexes_decl_go pair.into_inner

/-- One step of the inner `table_block` loop of `parse_table_decl`. -/
def table_block_step (acc : TableBlock) (p2 : Node) : ParsingResult TableBlock :=
  match p2.as_rule with
  | .table_col =>
    match parse_table_col p2 with
    | .ok v => .ok { acc with fields := acc.fields ++ [v] }
    | .error e => .error e
  | .note_decl =>
    match parse_note_decl p2 with
    | .ok v => .ok { acc with note := some v }
    | .error e => .error e
  | .indexes_decl =>
    match parse_indexes_decl p2 with
    | .ok v => .ok { acc with indexes := some v }
    | .error e => .error e
  | _ => throw_rules [.table_col, .note_decl, .indexes_decl] p2

def parse_table_decl (pair : Node) : ParsingResult TableBlock :=
  pair.into_inner.foldlM
    (fun acc p1 =>
      match p1.as_rule with
      | .decl_ident =>
        match parse_decl_ident p1 with
        | .ok v => .ok { acc with ident := { acc.ident with name := v.2, schema := v.1 } }
        | .error e => .error e
      | .table_alias => .ok { acc with ident := { acc.ident with alias_name := some p1.as_str } }
      | .table_block => p1.into_inner.foldlM table_block_step acc
      | _ => throw_rules [.decl_ident, .table_alias, .table_block] p1)
    {}

def parse_enum_value (pair : Node) : ParsingResult EnumValue :=
  pair.into_inner.foldlM
    (fun acc p1 =>
      match p1.as_rule with
      | .ident =>
        match parse_ident p1 with
        | .ok v => .ok { acc with value := v }
        | .error e => .error e
      | .enum_settings =>
        p1.into_inner.foldlM
          (fun (acc : EnumValue) p2 =>
            match p2.as_rule with
            | .enum_attribute =>
              p2.into_inner.foldlM
                (fun (acc : EnumValue) p3 =>
                  match p3.as_rule with
                  | .note_inline =>
                    match parse_note_inline p3 with
                    | .ok v => .ok { acc with note := some v }
                    | .error e => .error e
                  | _ => throw_rules [.note_inline] p3)
                acc
            | _ => throw_rules [.enum_attribute] p2)
          acc
      | _ => throw_rules [.ident, .enum_settings] p1)
    {}

def parse_enum_block (pair : Node) : ParsingResult (List EnumValue) :=
  pair.into_inner.foldlM
    (fun acc p1 =>
      match p1.as_rule with
      | .enum_value =>
        match parse_enum_value p1 with
        | .ok v => .ok (acc ++ [v])
        | .error e => .error e
      | _ => throw_rules [.enum_value] p1)
    []

def parse_enum_decl (pair : Node) : ParsingResult EnumBlock :=
  pair.into_inner.foldlM
    (fun acc p1 =>
      match p1.as_rule with
      | .decl_ident =>
        match parse_decl_ident p1 with
        | .ok v => .ok { acc with ident := { name := v.2, schema := v.1 } }
        | .error e => .error e
      | .enum_block =>
        match parse_enum_block p1 with
        | .ok v => .ok { acc with values := v }
        | .error e => .error e
      | _ => throw_rules [.decl_ident, .enum_block] p1)
    {}

def parse_table_group_decl (pair : Node) : ParsingResult TableGroupBlock :=
  pair.into_inner.foldlM
    (fun acc p1 =>
      match p1.as_rule with
      | .ident =>
        match parse_ident p1 with
        | .ok v => .ok { acc with name := v }
        | .error e => .error e
      | .table_group_block =>
        p1.into_inner.foldlM
          (fun (acc : TableGroupBlock) p2 =>
            match p2.as_rule with
            | .decl_ident =>
              match parse_decl_ident p2 with
              | .ok v =>
                .ok { acc with
                  table_idents := acc.table_idents ++ [{ schema := v.1, ident_alias := v.2 }] }
              | .error e => .error e
            | _ => throw_rules [.decl_ident] p2)
          acc
      | _ => throw_rules [.ident, .table_group_block] p1)
    {}

def parse_project_stmt (pair : Node) : ParsingResult (String × String) :=
  pair.into_inner.foldlM
    (fun (acc : String × String) p1 =>
      match p1.as_rule with
      | .project_key => .ok (p1.as_str, acc.2)
      | .string_value =>
        match parse_string_value p1 with
        | .ok v => .ok (acc.1, v)
        | .error e => .error e
      | _ => throw_rules [.project_key, .string_value] p1)
    ("", "")

/-- One step of the inner `project_block` loop of `parse_project_decl`. -/
def project_block_step (acc : ProjectBlock) (p2 : Node) : ParsingResult ProjectBlock :=
  match p2.as_rule with
  | .project_stmt =>
    match parse_project_stmt p2 with
    | .ok kv =>
      if kv.1 = "database_type" then .ok { acc with database_type := kv.2 }
      else throw_msg ("\x27" ++ kv.1 ++ "\x27 key is invalid inside project_block") p2
    | .error e => .error e
  | .note_decl =>
    match parse_note_decl p2 with
    | .ok v => .ok { acc with note := some v }
    | .error e => .error e
  | _ => throw_rules [.project_stmt, .note_decl] p2

def parse_project_decl (pair : Node) : ParsingResult ProjectBlock :=
  pair.into_inner.foldlM
    (fun acc p1 =>
      match p1.as_rule with
      | .ident =>
        match parse_ident p1 with
        | .ok v => .ok { acc with name := v }
        | .error e => .error e
      | .project_block => p1.into_inner.foldlM project_block_step acc
      | _ => throw_rules [.project_block] p1)
    {}

/-- One step of the `parse_schema` fold over the root's children. -/
def schema_step (acc : SchemaBlock) (p1 : Node) : ParsingResult SchemaBlock :=
  match p1.as_rule with
  | .project_decl =>
    match parse_project_decl p1 with
    | .ok v => .ok { acc with project := some v }
    | .error e => .error e
  | .table_decl =>
    match parse_table_decl p1 with
    | .ok v => .ok { acc with tables := acc.tables ++ [v] }
    | .error e => .error e
  | .enum_decl =>
    match parse_enum_decl p1 with
    | .ok v => .ok { acc with enums := acc.enums ++ [v] }
    | .error e => .error e
  | .ref_decl =>
    match parse_ref_decl p1 with
    | .ok v => .ok { acc with refs := acc.refs ++ [v] }
    | .error e => .error e
  | .table_group_decl =>
    match parse_table_group_decl p1 with
    | .ok v => .ok { acc with table_groups := acc.table_groups ++ [v] }
    | .error e => .error e
  | .EOI => .ok acc
  | _ => throw_rules [.project_decl, .table_decl, .enum_decl, .ref_decl, .table_group_decl] p1

def parse_schema (pair : Node) : ParsingResult SchemaBlock :=
  pair.into_inner.foldlM schema_step {}

/-- Top-level `parse`, starting from the pairs the grammar engine returns
for the `schema` rule. -/
def parse : List Node → ParsingResult SchemaBlock
  | [] => .error (.abort "unhandled parsing error!")
  | pair :: _ =>
    match pair.as_rule with
    | .schema => parse_schema pair
    | _ => throw_rules [.schema] pair

/-! ## Concrete parse-tree samples

Node builders shaped the way the grammar produces them, used to evaluate
the reduction on closed inputs. -/

instance {ε α : Type} [DecidableEq ε] [DecidableEq α] : DecidableEq (Except ε α) := fun x y =>
  match x, y with
  | .ok a, .ok b => if h : a = b then .isTrue (by rw [h]) else .isFalse (by simp [h])
  | .error a, .error b => if h : a = b then .isTrue (by rw [h]) else .isFalse (by simp [h])
  | .ok _, .error _ => .isFalse (by simp)
  | .error _, .ok _ => .isFalse (by simp)

def varNode (s : String) : Node := .mk .var s []

def identNode (s : String) : Node := .mk .ident s [varNode s]

def intValueNode (s : String) : Node :=
  .mk .value s [.mk .number_value s [.mk .integer s []]]

def decValueNode (s : String) : Node :=
  .mk .value s [.mk .number_value s [.mk .decimal s []]]

def boolValueNode (s : String) : Node :=
  .mk .value s [.mk .boolean_value s [.mk .var s []]]

def sqStringNode (s : String) : Node :=
  .mk .string_value s
    [.mk .single_quoted_string s [.mk .single_quoted_value s []]]

def strValueNode (s : String) : Node := .mk .value s [sqStringNode s]

/-! ## Claims -/

/-- C1: the claim says a numeric literal that does not fit in a 32-bit
signed integer makes `parse_value` return a typed parsing error rather than
aborting the process. The code instead calls `str::parse::<i32>().unwrap()`:
on the out-of-range literal `2147483648` the reduction aborts (an `unwrap`
panic), not a typed `rules`/`msg` error. -/
theorem c1_overflow_aborts :
    parse_value (intValueNode "2147483648") =
      .error (.abort "called Result::unwrap on an Err value: ParseIntError") := by decide

/-- C2: in a `ref_stmt`, the identifier group before the relation operator
becomes the left-hand side and the group after it becomes the right-hand
side; a `ref_stmt` with a single identifier group (after the operator)
populates only the right-hand side and leaves the left-hand side `None`.
The pivot works through `acc.rel`: a group seen while `rel` is still
undefined goes left, afterwards right; the hypothesis that the operator
text resolves to a defined relation reflects the grammar's fixed operator
vocabulary. -/
theorem c2_ref_stmt_pivot (t t' op : String) (g1 g2 : Node) (v1 v2 : RefIdent)
    (hop : Relation.match_type op ≠ Relation.undefined)
    (hg1 : g1.as_rule = Rule.ref_ident) (hg2 : g2.as_rule = Rule.ref_ident)
    (hv1 : parse_ref_ident g1 = .ok v1) (hv2 : parse_ref_ident g2 = .ok v2) :
    parse_ref_stmt_inline (.mk .ref_stmt t [g1, .mk .relation op [], g2]) =
      .ok { rel := Relation.match_type op, lhs := some v1, rhs := v2, settings := none } ∧
    parse_ref_stmt_inline (.mk .ref_stmt t' [.mk .relation op [], g2]) =
      .ok { rel := Relation.match_type op, lhs := none, rhs := v2, settings := none } := by
  constructor <;>
    simp [parse_ref_stmt_inline, List.foldlM, hg1, hg2, hv1, hv2, hop]

theorem c2_witness :
    Relation.match_type ">" ≠ Relation.undefined ∧
    (Node.mk .ref_ident "orders.user_id" [identNode "orders",
        .mk .ref_composition "user_id" [identNode "user_id"]]).as_rule = Rule.ref_ident ∧
    (Node.mk .ref_ident "users.id" [identNode "users",
        .mk .ref_composition "id" [identNode "id"]]).as_rule = Rule.ref_ident ∧
    parse_ref_ident (.mk .ref_ident "orders.user_id" [identNode "orders",
        .mk .ref_composition "user_id" [identNode "user_id"]]) =
      .ok { schema := none, table := "orders", compositions := ["user_id"] } ∧
    parse_ref_ident (.mk .ref_ident "users.id" [identNode "users",
        .mk .ref_composition "id" [identNode "id"]]) =
      .ok { schema := none, table := "users", compositions := ["id"] } ∧
    parse_ref_stmt_inline (.mk .ref_stmt "a" [
        .mk .ref_ident "orders.user_id" [identNode "orders",
          .mk .ref_composition "user_id" [identNode "user_id"]],
        .mk .relation ">" [],
        .mk .ref_ident "users.id" [identNode "users",
          .mk .ref_composition "id" [identNode "id"]]]) =
      .ok { rel := Relation.match_type ">",
            lhs := some { schema := none, table := "orders", compositions := ["user_id"] },
            rhs := { schema := none, table := "users", compositions := ["id"] },
            settings := none } :=
  ⟨by decide, rfl, rfl, by decide, by decide,
    (c2_ref_stmt_pivot "a" "b" ">"
      (.mk .ref_ident "orders.user_id" [identNode "orders",
        .mk .ref_composition "user_id" [identNode "user_id"]])
      (.mk .ref_ident "users.id" [identNode "users",
        .mk .ref_composition "id" [identNode "id"]])
      { schema := none, table := "orders", compositions := ["user_id"] }
      { schema := none, table := "users", compositions := ["id"] }
      (by decide) rfl rfl (by decide) (by decide)).1⟩

/-- C3: a `decl_ident` with exactly two identifier children reduces to
`(Some first, second)`, and with exactly one identifier child to
`(None, that identifier)`. -/
theorem c3_decl_ident (t t' : String) (a b : Node) (sa sb : String)
    (ha : a.as_rule = Rule.ident) (hb : b.as_rule = Rule.ident)
    (hpa : parse_ident a = .ok sa) (hpb : parse_ident b = .ok sb) :
    parse_decl_ident (.mk .decl_ident t [a, b]) = .ok (some sa, sb) ∧
    parse_decl_ident (.mk .decl_ident t' [b]) = .ok (none, sb) := by
  constructor <;>
    simp [parse_decl_ident, List.foldlM, ha, hb, hpa, hpb]

theorem c3_witness :
    (identNode "schema").as_rule = Rule.ident ∧
    (identNode "table").as_rule = Rule.ident ∧
    parse_ident (identNode "schema") = .ok "schema" ∧
    parse_ident (identNode "table") = .ok "table" ∧
    parse_decl_ident (.mk .decl_ident "schema.table" [identNode "schema", identNode "table"]) =
      .ok (some "schema", "table") ∧
    parse_decl_ident (.mk .decl_ident "table" [identNode "table"]) = .ok (none, "table") :=
  ⟨rfl, rfl, rfl, rfl,
    (c3_decl_ident "schema.table" "table" (identNode "schema") (identNode "table")
      "schema" "table" rfl rfl rfl rfl).1,
    (c3_decl_ident "schema.table" "table" (identNode "schema") (identNode "table")
      "schema" "table" rfl rfl rfl rfl).2⟩

/-- C4: the fixed-keyword tier of a `col_attribute` child: `unique` sets
only `is_unique`; `primary key` and `pk` set only `is_pk`; `null` sets only
`is_nullable`; `not null` leaves the accumulator unchanged; `increment`
sets only `is_incremental`. Each equation's right-hand side is a record
update of the incoming accumulator touching exactly the stated field. -/
theorem c4_col_attribute_keywords (acc : ColumnSettings) (n : Node)
    (h : n.as_rule = Rule.col_attribute) :
    (n.as_str = "unique" → col_settings_step acc n = .ok { acc with is_unique := true }) ∧
    (n.as_str = "primary key" → col_settings_step acc n = .ok { acc with is_pk := true }) ∧
    (n.as_str = "pk" → col_settings_step acc n = .ok { acc with is_pk := true }) ∧
    (n.as_str = "null" → col_settings_step acc n = .ok { acc with is_nullable := true }) ∧
    (n.as_str = "not null" → col_settings_step acc n = .ok acc) ∧
    (n.as_str = "increment" → col_settings_step acc n = .ok { acc with is_incremental := true }) := by
  refine ⟨?_, ?_, ?_, ?_, ?_, ?_⟩ <;> intro hs <;> simp [col_settings_step, h, hs]

theorem c4_witness :
    (Node.mk .col_attribute "pk" []).as_rule = Rule.col_attribute ∧
    ((Node.mk .col_attribute "pk" []).as_str = "pk" →
      col_settings_step {} (.mk .col_attribute "pk" []) =
        .ok { ({} : ColumnSettings) with is_pk := true }) :=
  ⟨rfl, (c4_col_attribute_keywords {} (.mk .col_attribute "pk" []) rfl).2.2.1⟩

/-- C5: `parse_value` maps each `value` node by the sub-form that matched:
a string sub-form yields `String` with the exact inner quoted content
unmodified; an integer sub-form yields `Integer` of the parsed 32-bit
value; a decimal sub-form yields `Decimal` of the parsed value; the boolean
sub-form yields `Bool true` for `true`, `Bool false` for `false`, and
`Null` for the literal `null`. -/
theorem c5_value_forms (tv ts ts2 ti td tb1 tb2 tb3 it dt s : String)
    (b1 b2 b3 : Node) (i : Int) (q : Rat)
    (hi : parseI32 it = some i) (hd : parseF32 dt = some q)
    (h1 : b1.as_str = "true") (h2 : b2.as_str = "false") (h3 : b3.as_str = "null") :
    parse_value (.mk .value tv [.mk .string_value ts
        [.mk .single_quoted_string ts2 [.mk .single_quoted_value s []]]]) =
      .ok (.string s) ∧
    parse_value (.mk .value ti [.mk .number_value it [.mk .integer it []]]) =
      .ok (.integer i) ∧
    parse_value (.mk .value td [.mk .number_value dt [.mk .decimal dt []]]) =
      .ok (.decimal q) ∧
    parse_value (.mk .value tb1 [.mk .boolean_value tb1 [b1]]) = .ok (.bool true) ∧
    parse_value (.mk .value tb2 [.mk .boolean_value tb2 [b2]]) = .ok (.bool false) ∧
    parse_value (.mk .value tb3 [.mk .boolean_value tb3 [b3]]) = .ok .null := by
  refine ⟨?_, ?_, ?_, ?_, ?_, ?_⟩ <;>
    simp [parse_value, parse_value_go, parse_value_number, parse_value_boolean,
      parse_string_value, List.foldlM, hi, hd, h1, h2, h3]

theorem c5_witness :
    parseI32 "42" = some 42 ∧
    parseF32 "3.14" = some (mkRat 157 50) ∧
    (varNode "true").as_str = "true" ∧
    (varNode "false").as_str = "false" ∧
    (varNode "null").as_str = "null" ∧
    parse_value (.mk .value "v" [.mk .string_value "s"
        [.mk .single_quoted_string "s" [.mk .single_quoted_value "abc" []]]]) =
      .ok (.string "abc") ∧
    parse_value (.mk .value "42" [.mk .number_value "42" [.mk .integer "42" []]]) =
      .ok (.integer 42) ∧
    parse_value (.mk .value "3.14" [.mk .number_value "3.14" [.mk .decimal "3.14" []]]) =
      .ok (.decimal (mkRat 157 50)) ∧
    parse_value (.mk .value "true" [.mk .boolean_value "true" [varNode "true"]]) =
      .ok (.bool true) ∧
    parse_value (.mk .value "false" [.mk .boolean_value "false" [varNode "false"]]) =
      .ok (.bool false) ∧
    parse_value (.mk .value "null" [.mk .boolean_value "null" [varNode "null"]]) =
      .ok .null := by
  have h := c5_value_forms "v" "s" "s" "42" "3.14" "true" "false" "null" "42" "3.14" "abc"
    (varNode "true") (varNode "false") (varNode "null") 42 (mkRat 157 50)
    (by decide) (by decide) rfl rfl rfl
  exact ⟨by decide, by decide, rfl, rfl, rfl, h.1, h.2.1, h.2.2.1, h.2.2.2.1,
    h.2.2.2.2.1, h.2.2.2.2.2⟩

/-- C6: inside a project block the only recognized configuration key is
`database_type`, whose string value is stored; any other key makes the
reduction fail with an error message naming the offending key; a note
declaration inside the project block is accepted and stored. -/
theorem c6_project_keys (t tb tb2 tb3 : String) (idn stmt stmt2 nd : Node)
    (nm key v v2 s : String)
    (hid : idn.as_rule = Rule.ident) (hpi : parse_ident idn = .ok nm)
    (hstmt : stmt.as_rule = Rule.project_stmt)
    (hkv : parse_project_stmt stmt = .ok ("database_type", v))
    (hstmt2 : stmt2.as_rule = Rule.project_stmt)
    (hkv2 : parse_project_stmt stmt2 = .ok (key, v2))
    (hkey : key ≠ "database_type")
    (hnd : nd.as_rule = Rule.note_decl) (hn : parse_note_decl nd = .ok s) :
    parse_project_decl (.mk .project_decl t [idn, .mk .project_block tb [stmt]]) =
      .ok { name := nm, database_type := v, note := none } ∧
    parse_project_decl (.mk .project_decl t [idn, .mk .project_block tb2 [stmt2]]) =
      .error (.msg ("\x27" ++ key ++ "\x27 key is invalid inside project_block") stmt2.as_str) ∧
    parse_project_decl (.mk .project_decl t [idn, .mk .project_block tb3 [nd]]) =
      .ok { name := nm, database_type := "", note := some s } := by
  refine ⟨?_, ?_, ?_⟩ <;>
    simp [parse_project_decl, project_block_step, List.foldlM, throw_msg, hid, hpi, hstmt,
      hkv, hstmt2, hkv2, hkey, hnd, hn]

theorem c6_witness :
    (identNode "p").as_rule = Rule.ident ∧
    parse_ident (identNode "p") = .ok "p" ∧
    (Node.mk .project_stmt "database_type: x"
      [.mk .project_key "database_type" [], sqStringNode "postgres"]).as_rule =
        Rule.project_stmt ∧
    parse_project_stmt (.mk .project_stmt "database_type: x"
      [.mk .project_key "database_type" [], sqStringNode "postgres"]) =
        .ok ("database_type", "postgres") ∧
    (Node.mk .project_stmt "foo: x"
      [.mk .project_key "foo" [], sqStringNode "bar"]).as_rule = Rule.project_stmt ∧
    parse_project_stmt (.mk .project_stmt "foo: x"
      [.mk .project_key "foo" [], sqStringNode "bar"]) = .ok ("foo", "bar") ∧
    ("foo" : String) ≠ "database_type" ∧
    (Node.mk .note_decl "n" [.mk .note_short "n" [sqStringNode "hello"]]).as_rule =
      Rule.note_decl ∧
    parse_note_decl (.mk .note_decl "n" [.mk .note_short "n" [sqStringNode "hello"]]) =
      .ok "hello" ∧
    parse_project_decl (.mk .project_decl "pd" [identNode "p", .mk .project_block "pb"
        [.mk .project_stmt "foo: x" [.mk .project_key "foo" [], sqStringNode "bar"]]]) =
      .error (.msg ("\x27foo\x27 key is invalid inside project_block") "foo: x") := by
  have h := c6_project_keys "pd" "pb" "pb" "pb" (identNode "p")
    (.mk .project_stmt "database_type: x"
      [.mk .project_key "database_type" [], sqStringNode "postgres"])
    (.mk .project_stmt "foo: x" [.mk .project_key "foo" [], sqStringNode "bar"])
    (.mk .note_decl "n" [.mk .note_short "n" [sqStringNode "hello"]])
    "p" "foo" "postgres" "bar" "hello"
    rfl (by decide) rfl (by decide) rfl (by decide) (by decide) rfl (by decide)
  exact ⟨rfl, by decide, rfl, by decide, rfl, by decide, by decide, rfl, by decide, h.2.1⟩

/-- A generic invariant-preservation principle for the `try_fold` loops of
the reducer. -/
theorem foldlM_preserves {σ : Type} (P : σ → Prop) (step : σ → Node → ParsingResult σ)
    (hstep : ∀ a b n, step a n = .ok b → P a → P b) :
    ∀ (l : List Node) (a b : σ), List.foldlM step a l = .ok b → P a → P b := by
  intro l
  induction l with
  | nil =>
    intro a b h hPa
    simp [List.foldlM] at h
    exact h ▸ hPa
  | cons x l ih =>
    intro a b h hPa
    rw [List.foldlM_cons] at h
    cases hs : step a x with
    | error e => rw [hs] at h; exact Except.noConfusion h
    | ok a' =>
      rw [hs] at h
      simp at h
      exact ih a' b h (hstep a a' x hs hPa)

/-- The structured sub-form tier of a `col_attribute` never touches
`is_array`. -/
theorem col_attribute_subform_step_is_array (acc res : ColumnSettings) (n : Node)
    (h : col_attribute_subform_step acc n = .ok res) : res.is_array = acc.is_array := by
  obtain ⟨r, t, cs⟩ := n
  cases r <;> simp only [col_attribute_subform_step, Node.as_rule_mk, throw_msg] at h <;>
    first
      | exact Except.noConfusion h
      | (split at h <;>
          first
            | (injection h with h'; subst h'; rfl)
            | exact Except.noConfusion h)

/-- A `col_attribute` fold step never touches `is_array`: the keyword tier
updates other booleans, and the sub-form tier is covered by
`col_attribute_subform_step_is_array`. -/
theorem col_settings_step_is_array (acc res : ColumnSettings) (n : Node)
    (h : col_settings_step acc n = .ok res) : res.is_array = acc.is_array := by
  obtain ⟨r, t, cs⟩ := n
  cases r <;>
    simp only [col_settings_step, Node.as_rule_mk, Node.as_str_mk, Node.into_inner_mk,
      throw_rules] at h <;>
    first
      | exact Except.noConfusion h
      | (split_ifs at h <;>
          first
            | (injection h with h'; subst h'; rfl)
            | exact foldlM_preserves (fun x => x.is_array = acc.is_array)
                col_attribute_subform_step
                (fun a b m hm hp =>
                  (col_attribute_subform_step_is_array a b m hm).trans hp)
                cs acc res h rfl)

/-- `parse_col_settings` always returns settings with `is_array = false`:
it folds from the default accumulator and no step touches `is_array`. -/
theorem parse_col_settings_is_array (n : Node) (res : ColumnSettings)
    (h : parse_col_settings n = .ok res) : res.is_array = false :=
  foldlM_preserves (fun x => x.is_array = false) col_settings_step
    (fun a b m hm hp => (col_settings_step_is_array a b m hm).trans hp)
    n.into_inner {} res h rfl

def c8_input : Node :=
  .mk .table_col "id int[] [pk]"
    [identNode "id",
     .mk .col_type "int[]" [.mk .col_type_array "int[]" [varNode "int"]],
     .mk .col_settings "[pk]" [.mk .col_attribute "pk" []]]

/-- C8 counterexample: the claim says the array marker forces
`is_array = true` regardless of whether a `col_settings` child follows. On
the concrete column `id int[] [pk]` the `col_type` child does carry the
array marker (third component `true`), yet the reduced field has
`is_array = false`: the `col_settings` child replaced the settings
wholesale. -/
theorem c8_counterexample :
    parse_col_type (.mk .col_type "int[]" [.mk .col_type_array "int[]" [varNode "int"]]) =
      .ok (.raw "int", [], true) ∧
    parse_table_col c8_input =
      .ok { col_name := "id", col_type := .raw "int", col_args := [],
            col_settings := { is_pk := true, is_array := false } } := by decide

/-- C8 amended: a `table_col` whose `col_type` child carries the array
marker reduces to a field with `is_array = true` regardless of which
type-argument list follows, provided no `col_settings` child follows the
`col_type` child; when a `col_settings` child does follow, it replaces the
column settings wholesale and the resulting `is_array` is `false` (the
`col_settings` reduction never sets it). -/
theorem c8_array_marker (tc : String) (idn ct cs : Node) (s : String)
    (ty : ColumnType) (args : List Value) (st : ColumnSettings)
    (hid : idn.as_rule = Rule.ident) (hpi : parse_ident idn = .ok s)
    (hct : ct.as_rule = Rule.col_type) (hpct : parse_col_type ct = .ok (ty, args, true))
    (hcs : cs.as_rule = Rule.col_settings) (hpcs : parse_col_settings cs = .ok st) :
    parse_table_col (.mk .table_col tc [idn, ct]) =
      .ok { col_name := s, col_type := ty, col_args := args,
            col_settings := { is_array := true } } ∧
    parse_table_col (.mk .table_col tc [idn, ct, cs]) =
      .ok { col_name := s, col_type := ty, col_args := args, col_settings := st } ∧
    st.is_array = false := by
  refine ⟨?_, ?_, parse_col_settings_is_array cs st hpcs⟩ <;>
    simp [parse_table_col, List.foldlM, hid, hpi, hct, hpct, hcs, hpcs]

theorem c8_array_marker_witness :
    (identNode "id").as_rule = Rule.ident ∧
    parse_ident (identNode "id") = .ok "id" ∧
    (Node.mk .col_type "int[]" [.mk .col_type_array "int[]" [varNode "int"]]).as_rule =
      Rule.col_type ∧
    parse_col_type (.mk .col_type "int[]" [.mk .col_type_array "int[]" [varNode "int"]]) =
      .ok (.raw "int", [], true) ∧
    (Node.mk .col_settings "[pk]" [.mk .col_attribute "pk" []]).as_rule =
      Rule.col_settings ∧
    parse_col_settings (.mk .col_settings "[pk]" [.mk .col_attribute "pk" []]) =
      .ok { is_pk := true } ∧
    parse_table_col (.mk .table_col "id int[] [pk]"
        [identNode "id", .mk .col_type "int[]" [.mk .col_type_array "int[]" [varNode "int"]]]) =
      .ok { col_name := "id", col_type := .raw "int", col_args := [],
            col_settings := { is_array := true } } := by
  have h := c8_array_marker "id int[] [pk]" (identNode "id")
    (.mk .col_type "int[]" [.mk .col_type_array "int[]" [varNode "int"]])
    (.mk .col_settings "[pk]" [.mk .col_attribute "pk" []])
    "id" (.raw "int") [] { is_pk := true }
    rfl (by decide) rfl (by decide) rfl (by decide)
  exact ⟨rfl, by decide, rfl, by decide, rfl, by decide, h.1⟩

/-- Spec-side comparison definition for the order-preservation claim:
reduce each node of a list with `f`, in order, keeping the results in the
same order and failing on the first error. -/
def reduce_each {α : Type} (f : Node → ParsingResult α) : List Node → ParsingResult (List α)
  | [] => .ok []
  | x :: l =>
    match f x with
    | .ok v =>
      match reduce_each f l with
      | .ok vs => .ok (v :: vs)
      | .error e => .error e
    | .error e => .error e

/-- The `parse_schema` fold collects, in child order, exactly the
reductions of the `table_decl` / `enum_decl` / `ref_decl` /
`table_group_decl` children, appended to the incoming accumulator. -/
theorem schema_fold_order :
    ∀ (cs : List Node) (acc sb : SchemaBlock),
      List.foldlM schema_step acc cs = .ok sb →
      ∃ ts es rs gs,
        reduce_each parse_table_decl (cs.filter (fun c => c.as_rule = Rule.table_decl)) =
          .ok ts ∧
        reduce_each parse_enum_decl (cs.filter (fun c => c.as_rule = Rule.enum_decl)) =
          .ok es ∧
        reduce_each parse_ref_decl (cs.filter (fun c => c.as_rule = Rule.ref_decl)) = .ok rs ∧
        reduce_each parse_table_group_decl
          (cs.filter (fun c => c.as_rule = Rule.table_group_decl)) = .ok gs ∧
        sb.tables = acc.tables ++ ts ∧ sb.enums = acc.enums ++ es ∧
        sb.refs = acc.refs ++ rs ∧ sb.table_groups = acc.table_groups ++ gs := by
  intro cs
  induction cs with
  | nil =>
    intro acc sb h
    simp only [List.foldlM_nil, ParsingResult.pure_eq_ok, Except.ok.injEq] at h
    subst h
    exact ⟨[], [], [], [], by simp [reduce_each], by simp [reduce_each],
      by simp [reduce_each], by simp [reduce_each], by simp, by simp, by simp, by simp⟩
  | cons x l ih =>
    intro acc sb h
    rw [List.foldlM_cons] at h
    cases hs : schema_step acc x with
    | error e => rw [hs] at h; exact Except.noConfusion h
    | ok acc' =>
      rw [hs, ParsingResult.bind_ok] at h
      obtain ⟨ts, es, rs, gs, h1, h2, h3, h4, e1, e2, e3, e4⟩ := ih acc' sb h
      obtain ⟨r, tx, ncs⟩ := x
      cases r <;>
        simp only [schema_step, Node.as_rule_mk, throw_rules] at hs <;>
        try exact Except.noConfusion hs
      case project_decl =>
        split at hs
        · rename_i v hv
          injection hs with hs'
          subst hs'
          exact ⟨ts, es, rs, gs, by simpa [List.filter_cons] using h1,
            by simpa [List.filter_cons] using h2, by simpa [List.filter_cons] using h3,
            by simpa [List.filter_cons] using h4, by simpa using e1, by simpa using e2,
            by simpa using e3, by simpa using e4⟩
        · exact Except.noConfusion hs
      case table_decl =>
        split at hs
        · rename_i v hv
          injection hs with hs'
          subst hs'
          refine ⟨v :: ts, es, rs, gs, ?_, by simpa [List.filter_cons] using h2,
            by simpa [List.filter_cons] using h3, by simpa [List.filter_cons] using h4,
            ?_, by simpa using e2, by simpa using e3, by simpa using e4⟩
          · simp [List.filter_cons, reduce_each, hv, h1]
          · simp only [e1]; simp
        · exact Except.noConfusion hs
      case enum_decl =>
        split at hs
        · rename_i v hv
          injection hs with hs'
          subst hs'
          refine ⟨ts, v :: es, rs, gs, by simpa [List.filter_cons] using h1, ?_,
            by simpa [List.filter_cons] using h3, by simpa [List.filter_cons] using h4,
            by simpa using e1, ?_, by simpa using e3, by simpa using e4⟩
          · simp [List.filter_cons, reduce_each, hv, h2]
          · simp only [e2]; simp
        · exact Except.noConfusion hs
      case ref_decl =>
        split at hs
        · rename_i v hv
          injection hs with hs'
          subst hs'
          refine ⟨ts, es, v :: rs, gs, by simpa [List.filter_cons] using h1,
            by simpa [List.filter_cons] using h2, ?_, by simpa [List.filter_cons] using h4,
            by simpa using e1, by simpa using e2, ?_, by simpa using e4⟩
          · simp [List.filter_cons, reduce_each, hv, h3]
          · simp only [e3]; simp
        · exact Except.noConfusion hs
      case table_group_decl =>
        split at hs
        · rename_i v hv
          injection hs with hs'
          subst hs'
          refine ⟨ts, es, rs, v :: gs, by simpa [List.filter_cons] using h1,
            by simpa [List.filter_cons] using h2, by simpa [List.filter_cons] using h3, ?_,
            by simpa using e1, by simpa using e2, by simpa using e3, ?_⟩
          · simp [List.filter_cons, reduce_each, hv, h4]
          · simp only [e4]; simp
        · exact Except.noConfusion hs
      case EOI =>
        injection hs with hs'
        subst hs'
        exact ⟨ts, es, rs, gs, by simpa [List.filter_cons] using h1,
          by simpa [List.filter_cons] using h2, by simpa [List.filter_cons] using h3,
          by simpa [List.filter_cons] using h4, e1, e2, e3, e4⟩

/-- The inner `table_block` loop collects, in child order, exactly the
reductions of the `table_col` children, appended to the incoming
accumulator's fields. -/
theorem table_block_fold_fields :
    ∀ (l : List Node) (acc tb : TableBlock),
      List.foldlM table_block_step acc l = .ok tb →
      ∃ fs, reduce_each parse_table_col (l.filter (fun c => c.as_rule = Rule.table_col)) =
          .ok fs ∧
        tb.fields = acc.fields ++ fs := by
  intro l
  induction l with
  | nil =>
    intro acc tb h
    simp only [List.foldlM_nil, ParsingResult.pure_eq_ok, Except.ok.injEq] at h
    subst h
    exact ⟨[], by simp [reduce_each], by simp⟩
  | cons x l ih =>
    intro acc tb h
    rw [List.foldlM_cons] at h
    cases hs : table_block_step acc x with
    | error e => rw [hs] at h; exact Except.noConfusion h
    | ok acc' =>
      rw [hs, ParsingResult.bind_ok] at h
      obtain ⟨fs, h1, e1⟩ := ih acc' tb h
      obtain ⟨r, tx, ncs⟩ := x
      cases r <;>
        simp only [table_block_step, Node.as_rule_mk, throw_rules] at hs <;>
        try exact Except.noConfusion hs
      case table_col =>
        split at hs
        · rename_i v hv
          injection hs with hs'
          subst hs'
          refine ⟨v :: fs, ?_, ?_⟩
          · simp [List.filter_cons, reduce_each, hv, h1]
          · simp only [e1]; simp
        · exact Except.noConfusion hs
      case note_decl =>
        split at hs
        · rename_i v hv
          injection hs with hs'
          subst hs'
          exact ⟨fs, by simpa [List.filter_cons] using h1, by simpa using e1⟩
        · exact Except.noConfusion hs
      case indexes_decl =>
        split at hs
        · rename_i v hv
          injection hs with hs'
          subst hs'
          exact ⟨fs, by simpa [List.filter_cons] using h1, by simpa using e1⟩
        · exact Except.noConfusion hs

/-- For a `table_decl` of the grammar's shape (a `decl_ident` child then a
`table_block` child), the reduced fields are exactly the reductions of the
block's `table_col` children, in order. -/
theorem parse_table_decl_fields (tt : String) (di blk : Node) (tb : TableBlock)
    (hdi : di.as_rule = Rule.decl_ident) (hblk : blk.as_rule = Rule.table_block)
    (h : parse_table_decl (.mk .table_decl tt [di, blk]) = .ok tb) :
    reduce_each parse_table_col
      (blk.into_inner.filter (fun c => c.as_rule = Rule.table_col)) = .ok tb.fields := by
  rw [parse_table_decl, Node.into_inner_mk, List.foldlM_cons] at h
  cases hdd : parse_decl_ident di with
  | error e => simp [hdi, hdd] at h
  | ok v =>
    simp only [hdi, hdd, ParsingResult.bind_ok, List.foldlM_cons, List.foldlM_nil, hblk] at h
    cases hf : List.foldlM table_block_step
        { ident := { name := v.2, schema := v.1, alias_name := none } } blk.into_inner with
    | error e => rw [hf] at h; simp at h
    | ok tb' =>
      rw [hf] at h
      simp only [ParsingResult.bind_ok, ParsingResult.pure_eq_ok, Except.ok.injEq] at h
      subst h
      obtain ⟨fs, hfs, e1⟩ := table_block_fold_fields blk.into_inner _ tb' hf
      simpa [e1] using hfs

/-- C7: for a parse tree accepted by the grammar, the `SchemaBlock` carries
its tables, enums, refs and table groups exactly in the order the
corresponding declarations appear among the root's children, and within a
table the fields appear in declaration order: each collection equals the
in-order reduction of the children of the corresponding rule-kind. -/
theorem c7_order (t : String) (cs : List Node) (sb : SchemaBlock)
    (tt : String) (di blk : Node) (tb : TableBlock)
    (h : parse_schema (.mk .schema t cs) = .ok sb)
    (hdi : di.as_rule = Rule.decl_ident) (hblk : blk.as_rule = Rule.table_block)
    (htb : parse_table_decl (.mk .table_decl tt [di, blk]) = .ok tb) :
    reduce_each parse_table_decl (cs.filter (fun c => c.as_rule = Rule.table_decl)) =
      .ok sb.tables ∧
    reduce_each parse_enum_decl (cs.filter (fun c => c.as_rule = Rule.enum_decl)) =
      .ok sb.enums ∧
    reduce_each parse_ref_decl (cs.filter (fun c => c.as_rule = Rule.ref_decl)) =
      .ok sb.refs ∧
    reduce_each parse_table_group_decl
      (cs.filter (fun c => c.as_rule = Rule.table_group_decl)) = .ok sb.table_groups ∧
    reduce_each parse_table_col
      (blk.into_inner.filter (fun c => c.as_rule = Rule.table_col)) = .ok tb.fields := by
  obtain ⟨ts, es, rs, gs, h1, h2, h3, h4, e1, e2, e3, e4⟩ :=
    schema_fold_order cs {} sb (by simpa [parse_schema] using h)
  refine ⟨?_, ?_, ?_, ?_, parse_table_decl_fields tt di blk tb hdi hblk htb⟩
  · rw [h1, e1]; simp
  · rw [h2, e2]; simp
  · rw [h3, e3]; simp
  · rw [h4, e4]; simp

def w7_col1 : Node :=
  .mk .table_col "id int"
    [identNode "id", .mk .col_type "int" [.mk .col_type_single "int" [varNode "int"]]]

def w7_col2 : Node :=
  .mk .table_col "name varchar"
    [identNode "name",
     .mk .col_type "varchar" [.mk .col_type_single "varchar" [varNode "varchar"]]]

def w7_table_di : Node := .mk .decl_ident "users" [identNode "users"]

def w7_table_blk : Node := .mk .table_block "tb" [w7_col1, w7_col2]

def w7_table : Node := .mk .table_decl "users" [w7_table_di, w7_table_blk]

def w7_enum : Node :=
  .mk .enum_decl "status"
    [.mk .decl_ident "status" [identNode "status"],
     .mk .enum_block "eb" [.mk .enum_value "active" [identNode "active"]]]

def w7_ref : Node :=
  .mk .ref_decl "r"
    [.mk .ref_short "rs"
      [.mk .ref_stmt "st"
        [.mk .relation ">" [],
         .mk .ref_ident "users.id"
           [identNode "users", .mk .ref_composition "id" [identNode "id"]]]]]

def w7_group : Node :=
  .mk .table_group_decl "g"
    [identNode "g",
     .mk .table_group_block "gb" [.mk .decl_ident "users" [identNode "users"]]]

def w7_children : List Node := [w7_table, w7_enum, w7_ref, w7_group, .mk .EOI "" []]

def w7_tableV : TableBlock :=
  { ident := { name := "users" },
    fields := [{ col_name := "id", col_type := .raw "int" },
               { col_name := "name", col_type := .raw "varchar" }] }

def w7_expected : SchemaBlock :=
  { project := none,
    tables := [w7_tableV],
    enums := [{ ident := { name := "status" }, values := [{ value := "active" }] }],
    refs := [{ rel := .many2one, lhs := none,
               rhs := { schema := none, table := "users", compositions := ["id"] },
               settings := none }],
    table_groups := [{ name := "g",
                       table_idents := [{ schema := none, ident_alias := "users" }] }] }

theorem c7_witness :
    parse_schema (.mk .schema "" w7_children) = .ok w7_expected ∧
    w7_table_di.as_rule = Rule.decl_ident ∧
    w7_table_blk.as_rule = Rule.table_block ∧
    parse_table_decl (.mk .table_decl "users" [w7_table_di, w7_table_blk]) = .ok w7_tableV ∧
    reduce_each parse_table_decl
      (w7_children.filter (fun c => c.as_rule = Rule.table_decl)) = .ok w7_expected.tables ∧
    reduce_each parse_enum_decl
      (w7_children.filter (fun c => c.as_rule = Rule.enum_decl)) = .ok w7_expected.enums ∧
    reduce_each parse_ref_decl
      (w7_children.filter (fun c => c.as_rule = Rule.ref_decl)) = .ok w7_expected.refs ∧
    reduce_each parse_table_group_decl
      (w7_children.filter (fun c => c.as_rule = Rule.table_group_decl)) =
        .ok w7_expected.table_groups ∧
    reduce_each parse_table_col
      (w7_table_blk.into_inner.filter (fun c => c.as_rule = Rule.table_col)) =
        .ok w7_tableV.fields := by
  have h := c7_order "" w7_children w7_expected "users" w7_table_di w7_table_blk w7_tableV
    (by decide) rfl rfl (by decide)
  exact ⟨by decide, rfl, rfl, by decide, h.1, h.2.1, h.2.2.1, h.2.2.2.1, h.2.2.2.2⟩

/-- A root child whose rule is outside the schema construct's expected set
makes the fold step fail with an `UnexpectedRule` error carrying the
expected rule set and the found rule. -/
theorem schema_step_unexpected (acc : SchemaBlock) (c : Node)
    (hc : c.as_rule ∉ [Rule.project_decl, Rule.table_decl, Rule.enum_decl,
      Rule.ref_decl, Rule.table_group_decl, Rule.EOI]) :
    schema_step acc c = .error (.rules [Rule.project_decl, Rule.table_decl, Rule.enum_decl,
      Rule.ref_decl, Rule.table_group_decl] c.as_rule c.as_str) := by
  obtain ⟨r, t, cs⟩ := c
  cases r <;> simp_all [schema_step, throw_rules]

/-- C9: reduction is fail-fast and all-or-nothing. The top-level `parse`
returns either a `SchemaBlock` or a single error, never both; and a root
child whose rule-kind is outside the schema construct's expected set aborts
the whole document's reduction — whatever declarations follow it — with an
error carrying the expected rule set and the found rule, so no partial AST
escapes. -/
theorem c9_fail_fast (ps : List Node) (t : String) (pre : List Node) (c : Node)
    (rest : List Node) (acc : SchemaBlock)
    (hc : c.as_rule ∉ [Rule.project_decl, Rule.table_decl, Rule.enum_decl,
      Rule.ref_decl, Rule.table_group_decl, Rule.EOI])
    (hpre : List.foldlM schema_step {} pre = .ok acc) :
    ((∃ sb, parse ps = .ok sb) ∨ (∃ e, parse ps = .error e)) ∧
    (∀ sb e, parse ps = .ok sb → parse ps ≠ .error e) ∧
    parse [Node.mk .schema t (pre ++ c :: rest)] =
      .error (.rules [Rule.project_decl, Rule.table_decl, Rule.enum_decl, Rule.ref_decl,
        Rule.table_group_decl] c.as_rule c.as_str) := by
  refine ⟨?_, ?_, ?_⟩
  · cases h : parse ps with
    | ok sb => exact .inl ⟨sb, rfl⟩
    | error e => exact .inr ⟨e, rfl⟩
  · intro sb e hok
    rw [hok]
    exact fun h => Except.noConfusion h
  · show parse_schema (.mk .schema t (pre ++ c :: rest)) = _
    rw [parse_schema, Node.into_inner_mk, List.foldlM_append, hpre,
      ParsingResult.bind_ok, List.foldlM_cons, schema_step_unexpected acc c hc,
      ParsingResult.bind_error]

theorem c9_witness :
    (varNode "bogus").as_rule ∉ [Rule.project_decl, Rule.table_decl, Rule.enum_decl,
      Rule.ref_decl, Rule.table_group_decl, Rule.EOI] ∧
    List.foldlM schema_step {} [Node.mk .project_decl "a" [identNode "p1"]] =
      .ok { project := some { name := "p1" } } ∧
    parse [Node.mk .schema ""
        [.mk .project_decl "a" [identNode "p1"], varNode "bogus",
         .mk .table_decl "b" [.mk .decl_ident "users" [identNode "users"]]]] =
      .error (.rules [Rule.project_decl, Rule.table_decl, Rule.enum_decl, Rule.ref_decl,
        Rule.table_group_decl] Rule.var "bogus") :=
  ⟨by decide, by decide,
    (c9_fail_fast [] "" [Node.mk .project_decl "a" [identNode "p1"]] (varNode "bogus")
      [.mk .table_decl "b" [.mk .decl_ident "users" [identNode "users"]]]
      { project := some { name := "p1" } } (by decide) (by decide)).2.2⟩

/-- C10: `parse_schema` does not reject a root with two project
declarations: the later declaration silently overwrites the earlier one,
and the returned `SchemaBlock` carries only the last one. -/
theorem c10_last_project_wins (t : String) (p1 p2 : Node) (v1 v2 : ProjectBlock)
    (h1 : p1.as_rule = Rule.project_decl) (h2 : p2.as_rule = Rule.project_decl)
    (hp1 : parse_project_decl p1 = .ok v1) (hp2 : parse_project_decl p2 = .ok v2) :
    parse_schema (.mk .schema t [p1, p2]) = .ok { project := some v2 } := by
  simp [parse_schema, List.foldlM, schema_step, h1, h2, hp1, hp2]

theorem c10_witness :
    (Node.mk .project_decl "a" [identNode "p1"]).as_rule = Rule.project_decl ∧
    (Node.mk .project_decl "b" [identNode "p2"]).as_rule = Rule.project_decl ∧
    parse_project_decl (.mk .project_decl "a" [identNode "p1"]) = .ok { name := "p1" } ∧
    parse_project_decl (.mk .project_decl "b" [identNode "p2"]) = .ok { name := "p2" } ∧
    parse_schema (.mk .schema ""
        [.mk .project_decl "a" [identNode "p1"], .mk .project_decl "b" [identNode "p2"]]) =
      .ok { project := some { name := "p2" } } :=
  ⟨rfl, rfl, by decide, by decide,
    c10_last_project_wins "" (.mk .project_decl "a" [identNode "p1"])
      (.mk .project_decl "b" [identNode "p2"])
      { name := "p1" } { name := "p2" } rfl rfl (by decide) (by decide)⟩

end DbmlOrm
